import Mathlib

/-!
Shallow embedding of the hastra-sol-vault-stake program
(programs/hastra-sol-vault-stake/src): state.rs, processor.rs, guard.rs,
events.rs, error.rs, together with the Anchor account constraints of
account_structs.rs that decide control flow (init-or-fail account creation,
mint and authority constraints, constraint evaluation order).

Modelling conventions:
- a Solana `Pubkey` is its 32 bytes, viewed as a `List Nat`;
- `u64` amounts are `Nat`; `i64` timestamps and periods are `Int`;
- calls into the external SPL token program are reified as a `TokenInstr`
  list returned by the handler (the handlers in processor.rs only issue
  CPIs after all checks pass, so an error return carries no instruction);
- `hashv` (sha256) is an abstract parameter `H : List Nat → List Nat`;
  `hashv(&[a, b])` hashes the concatenation of the slices, so it is
  embedded as `H (a ++ b)`;
- an Anchor `init` account that already exists aborts the transaction in
  the system program; this failure is `VaultError.accountAlreadyInUse`.
-/

namespace HastraVault

abbrev Pubkey := List Nat

/-- state.rs: `MAX_UNBONDING_PERIOD` = 31536000 (365 days in seconds). -/
def MAX_UNBONDING_PERIOD : Int := 31536000

/-- state.rs: `MIN_UNBONDING_PERIOD` = 1 (1 second). -/
def MIN_UNBONDING_PERIOD : Int := 1

/-- state.rs: `MAX_ADMINISTRATORS` = 5. -/
def MAX_ADMINISTRATORS : Nat := 5

/-- error.rs `CustomErrorCode`, plus `ProtocolPaused`, which processor.rs
raises on the pause checks. -/
inductive CustomErrorCode where
  | InvalidAmount
  | InvalidTokenReceived
  | InvalidVault
  | InvalidAuthority
  | InsufficientBalance
  | UnbondingPeriodNotElapsed
  | InsufficientUnbondingBalance
  | UnbondingInProgress
  | InvalidMint
  | InvalidVaultMint
  | InvalidTicketOwner
  | InvalidMintAuthority
  | InsufficientVaultBalance
  | InvalidVaultAuthority
  | InvalidFreezeAuthority
  | InvalidProgramData
  | NoUpgradeAuthority
  | InvalidUpgradeAuthority
  | MissingSigner
  | TooManyAdministrators
  | UnauthorizedFreezeAdministrator
  | InvalidRewardsEpoch
  | InvalidMerkleProof
  | RewardsAlreadyClaimed
  | InvalidRewardsAdministrator
  | ProtocolPaused
  | InvalidBondingPeriod
deriving DecidableEq

/-- A call outcome: a program error code, or the system-program failure when
an account marked `init` already exists. -/
inductive VaultError where
  | custom (code : CustomErrorCode)
  | accountAlreadyInUse
deriving DecidableEq

/-- state.rs `Config`. -/
structure Config where
  vault : Pubkey
  mint : Pubkey
  unbonding_period : Int
  freeze_administrators : List Pubkey
  rewards_administrators : List Pubkey
  bump : Nat
  paused : Bool
deriving DecidableEq

/-- state.rs `UnbondingTicket`. -/
structure UnbondingTicket where
  owner : Pubkey
  requested_amount : Nat
  start_balance : Nat
  start_ts : Int
deriving DecidableEq

/-- state.rs `RewardsEpoch`. -/
structure RewardsEpoch where
  index : Nat
  merkle_root : List Nat
  total : Nat
  created_ts : Int
deriving DecidableEq

/-- state.rs `ProofNode`: one Merkle proof element. -/
structure ProofNode where
  sibling : List Nat
  is_left : Bool
deriving DecidableEq

/-- A reified call to the external SPL token program. -/
inductive TokenInstr where
  | transfer (source destination authority : Pubkey) (amount : Nat)
  | mintTo (mint destination authority : Pubkey) (amount : Nat)
  | burn (mint source authority : Pubkey) (amount : Nat)
  | freezeAccount (account mint authority : Pubkey)
  | thawAccount (account mint authority : Pubkey)
deriving DecidableEq

/-- events.rs `DepositEvent`. -/
structure DepositEvent where
  user : Pubkey
  amount : Nat
  mint : Pubkey
  vault : Pubkey
deriving DecidableEq

/-- events.rs `UnbondEvent`. -/
structure UnbondEvent where
  user : Pubkey
  amount : Nat
  mint : Pubkey
  vault : Pubkey
deriving DecidableEq

/-- events.rs `RedeemEvent`. -/
structure RedeemEvent where
  user : Pubkey
  amount : Nat
  mint : Pubkey
  vault : Pubkey
deriving DecidableEq

/-- events.rs `RewardsClaimed`. -/
structure RewardsClaimed where
  user : Pubkey
  epoch : Nat
  amount : Nat
  mint : Pubkey
  vault : Pubkey
deriving DecidableEq

/-- events.rs `UnbondingPeriodUpdated`. -/
structure UnbondingPeriodUpdated where
  admin : Pubkey
  old_period : Int
  new_period : Int
  mint : Pubkey
  vault : Pubkey
deriving DecidableEq

/-- The deserialized state of the BPF upgradeable-loader program-data
account, as matched by guard.rs (`none` models a deserialization failure). -/
inductive UpgradeableLoaderState where
  | programData (slot : Nat) (upgrade_authority_address : Option Pubkey)
  | other
deriving DecidableEq

/-- guard.rs `validate_program_update_authority`. -/
def validate_program_update_authority (program_data : Option UpgradeableLoaderState)
    (authority : Pubkey) : Except VaultError Unit :=
  match program_data with
  | none => .error (.custom .InvalidProgramData)
  | some (.programData _ (some update_authority)) =>
      if authority = update_authority then .ok ()
      else .error (.custom .InvalidUpgradeAuthority)
  | some (.programData _ none) => .error (.custom .NoUpgradeAuthority)
  | some .other => .error (.custom .InvalidProgramData)

/-- Success of an embedded call. -/
def succeeds {α : Type} : Except VaultError α → Prop
  | .ok _ => True
  | .error _ => False

instance succeedsDecidable {α : Type} (e : Except VaultError α) : Decidable (succeeds e) :=
  match e with
  | .ok _ => .isTrue True.intro
  | .error _ => .isFalse (fun h => h)

instance exceptDecidableEq {ε α : Type} [DecidableEq ε] [DecidableEq α] :
    DecidableEq (Except ε α) := fun x y =>
  match x, y with
  | .error a, .error b =>
      if h : a = b then .isTrue (by rw [h])
      else .isFalse (fun hc => h (Except.error.inj hc))
  | .error _, .ok _ => .isFalse (fun hc => Except.noConfusion hc)
  | .ok _, .error _ => .isFalse (fun hc => Except.noConfusion hc)
  | .ok a, .ok b =>
      if h : a = b then .isTrue (by rw [h])
      else .isFalse (fun hc => h (Except.ok.inj hc))

/-- processor.rs `pause`: root-gated flip of the pause flag. -/
def pause (program_data : Option UpgradeableLoaderState) (config : Config)
    (signer : Pubkey) (flag : Bool) : Except VaultError Config :=
  match validate_program_update_authority program_data signer with
  | .error e => .error e
  | .ok _ => .ok { config with paused := flag }

/-- processor.rs `update_config`: root-gated, range-checked update of
`unbonding_period`.  Faithful to the source order: the config field is
assigned first, and the emitted event then reads
`ctx.accounts.config.unbonding_period` — i.e. the already-updated value —
into its `old_period` field. -/
def update_config (program_data : Option UpgradeableLoaderState) (config : Config)
    (signer : Pubkey) (new_unbonding_period : Int) :
    Except VaultError (Config × UnbondingPeriodUpdated) :=
  match validate_program_update_authority program_data signer with
  | .error e => .error e
  | .ok _ =>
    if new_unbonding_period < MIN_UNBONDING_PERIOD then .error (.custom .InvalidBondingPeriod)
    else if MAX_UNBONDING_PERIOD < new_unbonding_period then .error (.custom .InvalidBondingPeriod)
    else
      let config2 : Config := { config with unbonding_period := new_unbonding_period }
      .ok (config2,
        { admin := signer
          old_period := config2.unbonding_period
          new_period := new_unbonding_period
          mint := config2.mint
          vault := config2.vault })

/-- processor.rs `deposit`: amount and pause checks, then the transfer-in
and mint-to CPIs. -/
def deposit (config : Config) (signer : Pubkey)
    (user_vault_token_account vault_token_account mint mint_authority
      user_mint_token_account : Pubkey) (amount : Nat) :
    Except VaultError (List TokenInstr × DepositEvent) :=
  if amount = 0 then .error (.custom .InvalidAmount)
  else if config.paused then .error (.custom .ProtocolPaused)
  else
    .ok ([TokenInstr.transfer user_vault_token_account vault_token_account signer amount,
          TokenInstr.mintTo mint user_mint_token_account mint_authority amount],
         { user := signer, amount := amount, mint := mint, vault := vault_token_account })

/-- processor.rs `unbond` (instruction body): checks, then the ticket record
and event; no token CPI is issued. -/
def unbond (config : Config) (signer mint : Pubkey) (user_mint_balance : Nat)
    (now : Int) (amount : Nat) :
    Except VaultError (List TokenInstr × UnbondingTicket × UnbondEvent) :=
  if amount = 0 then .error (.custom .InvalidAmount)
  else if config.paused then .error (.custom .ProtocolPaused)
  else if user_mint_balance < amount then .error (.custom .InsufficientUnbondingBalance)
  else
    .ok ([],
         { owner := signer, requested_amount := amount,
           start_balance := user_mint_balance, start_ts := now },
         { user := signer, amount := amount, mint := mint, vault := config.vault })

/-- Lookup in the keyed store of live unbonding tickets (one PDA per owner,
seeds `[b"ticket", owner]`). -/
def findTicket : List (Pubkey × UnbondingTicket) → Pubkey → Option UnbondingTicket
  | [], _ => none
  | (o, t) :: rest, k => if o = k then some t else findTicket rest k

/-- `unbond` together with the Anchor `init` of the ticket account
(account_structs.rs `Unbond.ticket`): creation fails if a ticket already
exists for the owner seed, before the instruction body runs. -/
def unbondWithInit (tickets : List (Pubkey × UnbondingTicket)) (config : Config)
    (signer mint : Pubkey) (user_mint_balance : Nat) (now : Int) (amount : Nat) :
    Except VaultError
      (List (Pubkey × UnbondingTicket) × List TokenInstr × UnbondingTicket × UnbondEvent) :=
  match findTicket tickets signer with
  | some _ => .error .accountAlreadyInUse
  | none =>
    match unbond config signer mint user_mint_balance now amount with
    | .error e => .error e
    | .ok (instrs, t, ev) => .ok ((signer, t) :: tickets, instrs, t, ev)

/-- processor.rs `redeem`: pause, owner, time-lock, min-clamp and balance
checks, then the burn and transfer-out CPIs. -/
def redeem (config : Config) (now : Int) (ticket : UnbondingTicket) (signer : Pubkey)
    (user_mint_balance vault_balance : Nat)
    (mint user_mint_token_account vault_token_account user_vault_token_account
      vault_authority : Pubkey) :
    Except VaultError (List TokenInstr × RedeemEvent) :=
  if config.paused then .error (.custom .ProtocolPaused)
  else if ticket.owner ≠ signer then .error (.custom .InvalidTicketOwner)
  else if now - ticket.start_ts < config.unbonding_period then
    .error (.custom .UnbondingPeriodNotElapsed)
  else
    let redeemAmount := min ticket.requested_amount user_mint_balance
    if redeemAmount = 0 then .error (.custom .InsufficientUnbondingBalance)
    else if vault_balance < redeemAmount then .error (.custom .InsufficientVaultBalance)
    else
      .ok ([TokenInstr.burn mint user_mint_token_account signer redeemAmount,
            TokenInstr.transfer vault_token_account user_vault_token_account
              vault_authority redeemAmount],
           { user := signer, amount := redeemAmount, mint := mint,
             vault := vault_token_account })

/-- processor.rs `update_freeze_administrators`: root-gated, size-checked
full replacement of the freeze-administrator list. -/
def update_freeze_administrators (program_data : Option UpgradeableLoaderState)
    (config : Config) (signer : Pubkey) (new_administrators : List Pubkey) :
    Except VaultError Config :=
  match validate_program_update_authority program_data signer with
  | .error e => .error e
  | .ok _ =>
    if MAX_ADMINISTRATORS < new_administrators.length then
      .error (.custom .TooManyAdministrators)
    else .ok { config with freeze_administrators := new_administrators }

/-- processor.rs `update_rewards_administrators`: root-gated, size-checked
full replacement of the rewards-administrator list. -/
def update_rewards_administrators (program_data : Option UpgradeableLoaderState)
    (config : Config) (signer : Pubkey) (new_administrators : List Pubkey) :
    Except VaultError Config :=
  match validate_program_update_authority program_data signer with
  | .error e => .error e
  | .ok _ =>
    if MAX_ADMINISTRATORS < new_administrators.length then
      .error (.custom .TooManyAdministrators)
    else .ok { config with rewards_administrators := new_administrators }

/-- processor.rs `freeze_token_account`, preceded by the Anchor constraints
of account_structs.rs `FreezeTokenAccount` in account order: the target
account's mint must match (`InvalidMint`), the mint's freeze authority must
be the derived freeze-authority PDA (`InvalidFreezeAuthority`); the body
then checks freeze-administrator membership. -/
def freeze_token_account (config : Config) (signer : Pubkey)
    (token_account token_account_mint mint : Pubkey)
    (mint_freeze_authority : Option Pubkey) (freeze_authority_pda : Pubkey) :
    Except VaultError (List TokenInstr) :=
  if token_account_mint ≠ mint then .error (.custom .InvalidMint)
  else if mint_freeze_authority ≠ some freeze_authority_pda then
    .error (.custom .InvalidFreezeAuthority)
  else if signer ∈ config.freeze_administrators then
    .ok [TokenInstr.freezeAccount token_account mint freeze_authority_pda]
  else .error (.custom .UnauthorizedFreezeAdministrator)

/-- processor.rs `thaw_token_account`, with the same constraints and checks
as `freeze_token_account`. -/
def thaw_token_account (config : Config) (signer : Pubkey)
    (token_account token_account_mint mint : Pubkey)
    (mint_freeze_authority : Option Pubkey) (freeze_authority_pda : Pubkey) :
    Except VaultError (List TokenInstr) :=
  if token_account_mint ≠ mint then .error (.custom .InvalidMint)
  else if mint_freeze_authority ≠ some freeze_authority_pda then
    .error (.custom .InvalidFreezeAuthority)
  else if signer ∈ config.freeze_administrators then
    .ok [TokenInstr.thawAccount token_account mint freeze_authority_pda]
  else .error (.custom .UnauthorizedFreezeAdministrator)

/-- processor.rs `create_rewards_epoch`: rewards-administrator gated
creation of an epoch record. -/
def create_rewards_epoch (config : Config) (admin : Pubkey) (index : Nat)
    (merkle_root : List Nat) (total : Nat) (now : Int) :
    Except VaultError RewardsEpoch :=
  if admin ∈ config.rewards_administrators then
    .ok { index := index, merkle_root := merkle_root, total := total, created_ts := now }
  else .error (.custom .InvalidRewardsAdministrator)

/-- `u64::to_le_bytes`: the eight little-endian bytes of a 64-bit value. -/
def u64ToLeBytes (v : Nat) : List Nat :=
  [v % 256, v / 256 % 256, v / 256 ^ 2 % 256, v / 256 ^ 3 % 256,
   v / 256 ^ 4 % 256, v / 256 ^ 5 % 256, v / 256 ^ 6 % 256, v / 256 ^ 7 % 256]

/-- processor.rs `claim_rewards` leaf data:
`user.key ++ amount.to_le_bytes() ++ epoch.index.to_le_bytes()`. -/
def claimLeafData (user : Pubkey) (amount : Nat) (epochIndex : Nat) : List Nat :=
  user ++ u64ToLeBytes amount ++ u64ToLeBytes epochIndex

/-- One iteration of the proof loop in processor.rs `claim_rewards`: an
all-zero sibling hashes the node alone; otherwise `is_left` selects
`H(sib ++ node)` and its negation `H(node ++ sib)`. -/
def merkleFoldStep (H : List Nat → List Nat) (node : List Nat) (step : ProofNode) :
    List Nat :=
  if step.sibling.all (fun b => b == 0) then H node
  else if step.is_left then H (step.sibling ++ node)
  else H (node ++ step.sibling)

/-- The `node` value after the proof loop of processor.rs `claim_rewards`:
the leaf hash folded through every proof step in order. -/
def computedRoot (H : List Nat → List Nat) (user : Pubkey) (amount epochIndex : Nat)
    (proof : List ProofNode) : List Nat :=
  proof.foldl (merkleFoldStep H) (H (claimLeafData user amount epochIndex))

/-- processor.rs `claim_rewards` (instruction body): pause and amount
checks, leaf and root computation, root comparison, then the mint CPI and
event. -/
def claim_rewards (H : List Nat → List Nat) (config : Config) (user : Pubkey)
    (epoch : RewardsEpoch) (mint mint_authority user_stake_token_account : Pubkey)
    (amount : Nat) (proof : List ProofNode) :
    Except VaultError (List TokenInstr × RewardsClaimed) :=
  if config.paused then .error (.custom .ProtocolPaused)
  else if amount = 0 then .error (.custom .InvalidAmount)
  else if computedRoot H user amount epoch.index proof = epoch.merkle_root then
    .ok ([TokenInstr.mintTo mint user_stake_token_account mint_authority amount],
         { user := user, epoch := epoch.index, amount := amount, mint := mint,
           vault := config.vault })
  else .error (.custom .InvalidMerkleProof)

/-- Lookup in the keyed store of published rewards epochs (one PDA per
index, seeds `[b"epoch", index_le]`). -/
def lookupEpoch : List (Nat × RewardsEpoch) → Nat → Option RewardsEpoch
  | [], _ => none
  | (i, e) :: rest, j => if i = j then some e else lookupEpoch rest j

/-- One `claim_rewards` call as submitted by a user. -/
structure ClaimCall where
  user : Pubkey
  epochIndex : Nat
  user_stake_token_account : Pubkey
  amount : Nat
  proof : List ProofNode
deriving DecidableEq

/-- The (epoch, claimant) key of the claim-record PDA
(seeds `[b"claim", epoch, user]`, account_structs.rs `ClaimRewards`). -/
def claimKey (c : ClaimCall) : Nat × Pubkey := (c.epochIndex, c.user)

/-- `claim_rewards` together with the Anchor `init` of the claim-record
account: the call fails before the body if the epoch account is missing or
the claim record already exists; on success the record is created.  Returns
the updated record store and the issued token instructions (`none` when the
call failed, since a failed transaction commits no CPI). -/
def claimStep (H : List Nat → List Nat) (config : Config)
    (epochs : List (Nat × RewardsEpoch)) (mint mint_authority : Pubkey)
    (records : List (Nat × Pubkey)) (c : ClaimCall) :
    List (Nat × Pubkey) × Option (List TokenInstr) :=
  match lookupEpoch epochs c.epochIndex with
  | none => (records, none)
  | some epoch =>
    if claimKey c ∈ records then (records, none)
    else
      match claim_rewards H config c.user epoch mint mint_authority
          c.user_stake_token_account c.amount c.proof with
      | .ok (instrs, _) => (claimKey c :: records, some instrs)
      | .error _ => (records, none)

/-- Number of successful claims for the key `k` in a sequence of calls run
from a given record store. -/
def countClaimSuccesses (H : List Nat → List Nat) (config : Config)
    (epochs : List (Nat × RewardsEpoch)) (mint mint_authority : Pubkey) :
    List (Nat × Pubkey) → List ClaimCall → Nat × Pubkey → Nat
  | _, [], _ => 0
  | records, c :: rest, k =>
    (if (claimStep H config epochs mint mint_authority records c).2.isSome ∧ claimKey c = k
     then 1 else 0)
      + countClaimSuccesses H config epochs mint mint_authority
          (claimStep H config epochs mint mint_authority records c).1 rest k

/-- Effect of one token instruction on account balances (the external
ledger interface of the token program). -/
def applyTokenInstr (bal : Pubkey → Nat) : TokenInstr → Pubkey → Nat
  | .transfer source destination _ amount => fun a =>
      if a = source then bal a - amount
      else if a = destination then bal a + amount
      else bal a
  | .mintTo _ destination _ amount => fun a =>
      if a = destination then bal a + amount else bal a
  | .burn _ source _ amount => fun a =>
      if a = source then bal a - amount else bal a
  | .freezeAccount _ _ _ => bal
  | .thawAccount _ _ _ => bal

/-- Effect of a list of token instructions on account balances. -/
def applyTokenInstrs (bal : Pubkey → Nat) (l : List TokenInstr) : Pubkey → Nat :=
  l.foldl applyTokenInstr bal

/-- Written from the spec sentence on leaf construction:
`leaf = H(claimantIdentity ∥ amount_as_8_little_endian_bytes ∥
epochIndex_as_8_little_endian_bytes)`. -/
def specClaimLeaf (H : List Nat → List Nat) (claimant : Pubkey)
    (amount epochIndex : Nat) : List Nat :=
  H (claimant ++ u64ToLeBytes amount ++ u64ToLeBytes epochIndex)

/-- Written from the spec sentence on proof folding: a sibling of all-zero
bytes folds to `H(node)` alone; otherwise `H(sibling ∥ node)` when
sibling-is-left, else `H(node ∥ sibling)`. -/
def specFoldNode (H : List Nat → List Nat) (node : List Nat) (step : ProofNode) :
    List Nat :=
  if ∀ b ∈ step.sibling, b = 0 then H node
  else if step.is_left then H (step.sibling ++ node)
  else H (node ++ step.sibling)

/-- Written from the spec: the root obtained by folding all proof steps in
order, starting from the leaf. -/
def specComputedRoot (H : List Nat → List Nat) (claimant : Pubkey)
    (amount epochIndex : Nat) (proof : List ProofNode) : List Nat :=
  proof.foldl (specFoldNode H) (specClaimLeaf H claimant amount epochIndex)

/-- A concrete configuration used by the witness theorems. -/
def sampleConfig : Config :=
  { vault := [2], mint := [3], unbonding_period := 5,
    freeze_administrators := [], rewards_administrators := [],
    bump := 0, paused := false }

/-- A concrete live ticket used by the witness theorems. -/
def sampleTicket : UnbondingTicket :=
  { owner := [4], requested_amount := 3, start_balance := 5, start_ts := 0 }

/-- A concrete ticket store holding the one live ticket of owner `[4]`. -/
def sampleTickets : List (Pubkey × UnbondingTicket) := [([4], sampleTicket)]

/-- The ticket a successful sample unbond at time 100 creates. -/
def sampleTicket100 : UnbondingTicket :=
  { owner := [4], requested_amount := 3, start_balance := 5, start_ts := 100 }

/-- The sample configuration with the pause flag set. -/
def samplePausedConfig : Config :=
  { vault := [2], mint := [3], unbonding_period := 5,
    freeze_administrators := [], rewards_administrators := [],
    bump := 0, paused := true }

/-- A configuration whose freeze-administrator list holds `[5]` and whose
rewards-administrator list holds `[6]`. -/
def sampleFreezeConfig : Config :=
  { vault := [2], mint := [3], unbonding_period := 5,
    freeze_administrators := [[5]], rewards_administrators := [[6]],
    bump := 0, paused := false }

/-- A concrete rewards epoch whose root equals the sample hash of the
sample leaf. -/
def sampleEpoch : RewardsEpoch :=
  { index := 7, merkle_root := [48], total := 0, created_ts := 0 }

/-- The per-step folding function written from the spec agrees with the one
of the source loop. -/
theorem specFoldNode_eq_merkleFoldStep (H : List Nat → List Nat) (node : List Nat)
    (step : ProofNode) : specFoldNode H node step = merkleFoldStep H node step := by
  simp only [specFoldNode, merkleFoldStep, List.all_eq_true, beq_iff_eq]

/-- Folding a whole proof with the spec-side function and with the
source-side function agree. -/
theorem specFold_eq_codeFold (H : List Nat → List Nat) (proof : List ProofNode)
    (node : List Nat) :
    proof.foldl (specFoldNode H) node = proof.foldl (merkleFoldStep H) node := by
  induction proof generalizing node with
  | nil => rfl
  | cons s rest ih =>
    simp only [List.foldl_cons, specFoldNode_eq_merkleFoldStep, ih]

/-- C1: `claim_rewards` computes the leaf as the hash of the claimant's
identity bytes, the amount as 8 little-endian bytes, and the epoch index as
8 little-endian bytes, folds the proof steps in order (all-zero sibling:
`H(node)`; `is_left`: `H(sibling ++ node)`; otherwise `H(node ++ sibling)`),
succeeds past verification iff the final node equals the stored epoch
`merkle_root`, and fails with `InvalidMerkleProof` otherwise. -/
theorem claim_rewards_merkle_verification
    (H : List Nat → List Nat) (config : Config) (user : Pubkey)
    (epoch : RewardsEpoch) (mint ma usta : Pubkey) (amount : Nat)
    (proof : List ProofNode) (hp : config.paused = false) (ha : amount ≠ 0) :
    (succeeds (claim_rewards H config user epoch mint ma usta amount proof) ↔
      specComputedRoot H user amount epoch.index proof = epoch.merkle_root)
    ∧ (specComputedRoot H user amount epoch.index proof ≠ epoch.merkle_root →
        claim_rewards H config user epoch mint ma usta amount proof
          = .error (.custom .InvalidMerkleProof)) := by
  have hfold : specComputedRoot H user amount epoch.index proof
      = computedRoot H user amount epoch.index proof :=
    specFold_eq_codeFold H proof _
  unfold claim_rewards
  rw [hp, hfold]
  simp only [Bool.false_eq_true, if_false, ha, ite_false]
  by_cases hr : computedRoot H user amount epoch.index proof = epoch.merkle_root
  · simp [hr, succeeds]
  · simp [hr, succeeds]

/-- C1 witness: a concrete hash, claimant, amount 1000, epoch 7 and the
empty proof; the leaf itself is the root, so the claim verifies. -/
theorem claim_rewards_merkle_verification_witness :
    succeeds (claim_rewards (fun l => [l.length])
      { vault := [2], mint := [3], unbonding_period := 5,
        freeze_administrators := [], rewards_administrators := [],
        bump := 0, paused := false }
      (List.replicate 32 1)
      { index := 7, merkle_root := [48], total := 0, created_ts := 0 }
      [9] [10] [11] 1000 []) :=
  (claim_rewards_merkle_verification (fun l => [l.length])
      { vault := [2], mint := [3], unbonding_period := 5,
        freeze_administrators := [], rewards_administrators := [],
        bump := 0, paused := false }
      (List.replicate 32 1)
      { index := 7, merkle_root := [48], total := 0, created_ts := 0 }
      [9] [10] [11] 1000 [] rfl (by decide)).1.mpr (by decide)

/-- C2: with a ticket owned by the caller and the protocol not paused,
`redeem` fails with `UnbondingPeriodNotElapsed` whenever
`now - ticket.start_ts < config.unbonding_period` (so no burn or transfer
is issued), and succeeds whenever the period has elapsed and the caller's
derivative balance and the vault balance are sufficient. -/
theorem redeem_timelock
    (config : Config) (now : Int) (ticket : UnbondingTicket) (signer : Pubkey)
    (user_mint_balance vault_balance : Nat)
    (mint umta vta uvta va : Pubkey)
    (hown : ticket.owner = signer) (hp : config.paused = false) :
    (now - ticket.start_ts < config.unbonding_period →
      redeem config now ticket signer user_mint_balance vault_balance
          mint umta vta uvta va
        = .error (.custom .UnbondingPeriodNotElapsed))
    ∧ (config.unbonding_period ≤ now - ticket.start_ts →
       0 < min ticket.requested_amount user_mint_balance →
       min ticket.requested_amount user_mint_balance ≤ vault_balance →
       succeeds (redeem config now ticket signer user_mint_balance vault_balance
          mint umta vta uvta va)) := by
  unfold redeem
  rw [hp, hown]
  constructor
  · intro hlt
    simp [hlt]
  · intro hge h0 hv
    have hnlt : ¬ (now - ticket.start_ts < config.unbonding_period) := not_lt.mpr hge
    have hne : min ticket.requested_amount user_mint_balance ≠ 0 := Nat.pos_iff_ne_zero.mp h0
    have hnv : ¬ (vault_balance < min ticket.requested_amount user_mint_balance) :=
      not_lt.mpr hv
    simp [hnlt, hne, hnv, succeeds]

/-- C2 witness: a concrete ticket with `unbonding_period` 5 and `start_ts`
0; at `now = 3` the call fails with the not-elapsed error, at `now = 100`
it succeeds. -/
theorem redeem_timelock_witness :
    (redeem
      { vault := [2], mint := [3], unbonding_period := 5,
        freeze_administrators := [], rewards_administrators := [],
        bump := 0, paused := false } 3
      { owner := [4], requested_amount := 3, start_balance := 5, start_ts := 0 }
      [4] 5 5 [3] [6] [7] [8] [9]
      = .error (.custom .UnbondingPeriodNotElapsed))
    ∧ succeeds (redeem
      { vault := [2], mint := [3], unbonding_period := 5,
        freeze_administrators := [], rewards_administrators := [],
        bump := 0, paused := false } 100
      { owner := [4], requested_amount := 3, start_balance := 5, start_ts := 0 }
      [4] 5 5 [3] [6] [7] [8] [9]) :=
  ⟨(redeem_timelock
      { vault := [2], mint := [3], unbonding_period := 5,
        freeze_administrators := [], rewards_administrators := [],
        bump := 0, paused := false } 3
      { owner := [4], requested_amount := 3, start_balance := 5, start_ts := 0 }
      [4] 5 5 [3] [6] [7] [8] [9] rfl rfl).1 (by decide),
   (redeem_timelock
      { vault := [2], mint := [3], unbonding_period := 5,
        freeze_administrators := [], rewards_administrators := [],
        bump := 0, paused := false } 100
      { owner := [4], requested_amount := 3, start_balance := 5, start_ts := 0 }
      [4] 5 5 [3] [6] [7] [8] [9] rfl rfl).2 (by decide) (by decide) (by decide)⟩

/-- C3: a successful `redeem` burns and transfers exactly
`min(ticket.requested_amount, current derivative balance)`; it fails with
`InsufficientUnbondingBalance` when that minimum is 0 and with
`InsufficientVaultBalance` when the vault holds less than the redeem
amount; the burned amount never exceeds the caller's current balance. -/
theorem redeem_burn_min_clamp
    (config : Config) (now : Int) (ticket : UnbondingTicket) (signer : Pubkey)
    (user_mint_balance vault_balance : Nat)
    (mint umta vta uvta va : Pubkey)
    (hown : ticket.owner = signer) (hp : config.paused = false)
    (helapsed : config.unbonding_period ≤ now - ticket.start_ts) :
    (∀ instrs ev,
      redeem config now ticket signer user_mint_balance vault_balance
          mint umta vta uvta va = .ok (instrs, ev) →
      instrs = [TokenInstr.burn mint umta signer
                  (min ticket.requested_amount user_mint_balance),
                TokenInstr.transfer vta uvta va
                  (min ticket.requested_amount user_mint_balance)]
      ∧ min ticket.requested_amount user_mint_balance ≤ user_mint_balance)
    ∧ (min ticket.requested_amount user_mint_balance = 0 →
        redeem config now ticket signer user_mint_balance vault_balance
            mint umta vta uvta va
          = .error (.custom .InsufficientUnbondingBalance))
    ∧ (0 < min ticket.requested_amount user_mint_balance →
       vault_balance < min ticket.requested_amount user_mint_balance →
        redeem config now ticket signer user_mint_balance vault_balance
            mint umta vta uvta va
          = .error (.custom .InsufficientVaultBalance)) := by
  have hnlt : ¬ (now - ticket.start_ts < config.unbonding_period) := not_lt.mpr helapsed
  unfold redeem
  rw [hp, hown]
  refine ⟨?_, ?_, ?_⟩
  · intro instrs ev h
    simp only [Bool.false_eq_true, if_false, ne_eq, not_true_eq_false, hnlt] at h
    split_ifs at h
    all_goals
      first
        | exact Except.noConfusion h
        | (injection h with hpair
           injection hpair with h1 h2
           subst h1
           exact ⟨rfl, Nat.min_le_right _ _⟩)
  · intro h0
    simp [hnlt, h0]
  · intro h0 hv
    have hne : min ticket.requested_amount user_mint_balance ≠ 0 :=
      Nat.pos_iff_ne_zero.mp h0
    simp [hnlt, hne, hv]

/-- C3 witness: requested 3, current balance 5, vault balance 5 — the call
burns and transfers `min 3 5 = 3`; and with balance 0 the minimum is 0 and
the call fails with `InsufficientUnbondingBalance`. -/
theorem redeem_burn_min_clamp_witness :
    ([TokenInstr.burn [3] [6] [4] (min 3 5), TokenInstr.transfer [7] [8] [9] (min 3 5)]
      = [TokenInstr.burn [3] [6] [4] (min 3 5), TokenInstr.transfer [7] [8] [9] (min 3 5)]
      ∧ min 3 5 ≤ 5)
    ∧ (redeem
        { vault := [2], mint := [3], unbonding_period := 5,
          freeze_administrators := [], rewards_administrators := [],
          bump := 0, paused := false } 100
        { owner := [4], requested_amount := 3, start_balance := 5, start_ts := 0 }
        [4] 0 5 [3] [6] [7] [8] [9]
        = .error (.custom .InsufficientUnbondingBalance)) :=
  ⟨(redeem_burn_min_clamp
      { vault := [2], mint := [3], unbonding_period := 5,
        freeze_administrators := [], rewards_administrators := [],
        bump := 0, paused := false } 100
      { owner := [4], requested_amount := 3, start_balance := 5, start_ts := 0 }
      [4] 5 5 [3] [6] [7] [8] [9] rfl rfl (by decide)).1
      [TokenInstr.burn [3] [6] [4] (min 3 5), TokenInstr.transfer [7] [8] [9] (min 3 5)]
      { user := [4], amount := min 3 5, mint := [3], vault := [7] } (by decide),
   (redeem_burn_min_clamp
      { vault := [2], mint := [3], unbonding_period := 5,
        freeze_administrators := [], rewards_administrators := [],
        bump := 0, paused := false } 100
      { owner := [4], requested_amount := 3, start_balance := 5, start_ts := 0 }
      [4] 0 5 [3] [6] [7] [8] [9] rfl rfl (by decide)).2.1 (by decide)⟩

/-- A claim step never removes a record from the store. -/
theorem claimStep_mem_mono (H : List Nat → List Nat) (config : Config)
    (epochs : List (Nat × RewardsEpoch)) (mint ma : Pubkey)
    (records : List (Nat × Pubkey)) (c : ClaimCall) (k : Nat × Pubkey)
    (hk : k ∈ records) :
    k ∈ (claimStep H config epochs mint ma records c).1 := by
  unfold claimStep
  cases h : lookupEpoch epochs c.epochIndex with
  | none => exact hk
  | some epoch =>
    by_cases hm : claimKey c ∈ records
    · simpa [hm] using hk
    · cases hcr : claim_rewards H config c.user epoch mint ma
          c.user_stake_token_account c.amount c.proof with
      | error e => simpa [hm, hcr] using hk
      | ok v =>
        obtain ⟨instrs, ev⟩ := v
        simp only [hm, if_false, hcr]
        exact List.mem_cons_of_mem _ hk

/-- A successful claim step requires the record to be absent and creates
exactly that record. -/
theorem claimStep_success_record (H : List Nat → List Nat) (config : Config)
    (epochs : List (Nat × RewardsEpoch)) (mint ma : Pubkey)
    (records : List (Nat × Pubkey)) (c : ClaimCall) (instrs : List TokenInstr)
    (hs : (claimStep H config epochs mint ma records c).2 = some instrs) :
    claimKey c ∉ records ∧
    (claimStep H config epochs mint ma records c).1 = claimKey c :: records := by
  unfold claimStep at hs ⊢
  cases h : lookupEpoch epochs c.epochIndex with
  | none =>
    rw [h] at hs
    exact Option.noConfusion hs
  | some epoch =>
    rw [h] at hs
    by_cases hm : claimKey c ∈ records
    · simp only [hm, if_true] at hs
      exact Option.noConfusion hs
    · simp only [hm, if_false] at hs
      cases hcr : claim_rewards H config c.user epoch mint ma
          c.user_stake_token_account c.amount c.proof with
      | error e =>
        rw [hcr] at hs
        exact Option.noConfusion hs
      | ok v =>
        obtain ⟨instrs2, ev⟩ := v
        rw [hcr] at hs
        refine ⟨hm, ?_⟩
        simp only [hm, if_false, hcr]

/-- Once the record for `k` exists, no later call in a trace succeeds
for `k`. -/
theorem claimSuccesses_zero_of_mem (H : List Nat → List Nat) (config : Config)
    (epochs : List (Nat × RewardsEpoch)) (mint ma : Pubkey)
    (records : List (Nat × Pubkey)) (calls : List ClaimCall) (k : Nat × Pubkey)
    (hk : k ∈ records) :
    countClaimSuccesses H config epochs mint ma records calls k = 0 := by
  induction calls generalizing records with
  | nil => rfl
  | cons c rest ih =>
    have hmono := claimStep_mem_mono H config epochs mint ma records c k hk
    have hzero : ¬ ((claimStep H config epochs mint ma records c).2.isSome = true
        ∧ claimKey c = k) := by
      rintro ⟨hsome, hkey⟩
      obtain ⟨instrs, hinstrs⟩ := Option.isSome_iff_exists.mp hsome
      exact (claimStep_success_record H config epochs mint ma records c instrs
        hinstrs).1 (hkey ▸ hk)
    simp only [countClaimSuccesses, if_neg hzero, Nat.zero_add]
    exact ih _ hmono

/-- C4: for every fixed (epoch, claimant) key, at most one claim in any
trace of `claim_rewards` calls succeeds; a call finding the record already
present fails, changes nothing, and mints no tokens; and a successful call
requires the record to be absent and creates exactly that record. -/
theorem claim_record_double_claim_guard (H : List Nat → List Nat) (config : Config)
    (epochs : List (Nat × RewardsEpoch)) (mint ma : Pubkey)
    (records : List (Nat × Pubkey)) (calls : List ClaimCall) (k : Nat × Pubkey) :
    countClaimSuccesses H config epochs mint ma records calls k ≤ 1
    ∧ (∀ c : ClaimCall, claimKey c ∈ records →
        claimStep H config epochs mint ma records c = (records, none))
    ∧ (∀ (c : ClaimCall) (instrs : List TokenInstr),
        (claimStep H config epochs mint ma records c).2 = some instrs →
        claimKey c ∉ records ∧
        (claimStep H config epochs mint ma records c).1 = claimKey c :: records) := by
  refine ⟨?_, ?_, fun c instrs hs =>
    claimStep_success_record H config epochs mint ma records c instrs hs⟩
  · induction calls generalizing records with
    | nil => exact Nat.zero_le 1
    | cons c rest ih =>
      by_cases hc : (claimStep H config epochs mint ma records c).2.isSome = true
          ∧ claimKey c = k
      · obtain ⟨instrs, hinstrs⟩ := Option.isSome_iff_exists.mp hc.1
        have hsucc := claimStep_success_record H config epochs mint ma records c
          instrs hinstrs
        have hrest : countClaimSuccesses H config epochs mint ma
            (claimStep H config epochs mint ma records c).1 rest k = 0 := by
          apply claimSuccesses_zero_of_mem
          rw [hsucc.2, ← hc.2]
          exact List.mem_cons_self _ _
        simp only [countClaimSuccesses, if_pos hc, hrest]
        omega
      · simp only [countClaimSuccesses, if_neg hc, Nat.zero_add]
        exact ih _
  · intro c hmem
    unfold claimStep
    cases lookupEpoch epochs c.epochIndex
    · rfl
    · simp [hmem]

/-- C4 witness: a concrete two-call trace in which the same (epoch,
claimant) claim is submitted twice; the success count is at most one, and a
claim whose record already exists returns the store unchanged with no
token instruction. -/
theorem claim_record_double_claim_guard_witness :
    countClaimSuccesses (fun l => [l.length])
      { vault := [2], mint := [3], unbonding_period := 5,
        freeze_administrators := [], rewards_administrators := [],
        bump := 0, paused := false }
      [(7, { index := 7, merkle_root := [48], total := 0, created_ts := 0 })]
      [3] [10] []
      [{ user := List.replicate 32 1, epochIndex := 7,
         user_stake_token_account := [11], amount := 1000, proof := [] },
       { user := List.replicate 32 1, epochIndex := 7,
         user_stake_token_account := [11], amount := 1000, proof := [] }]
      (7, List.replicate 32 1) ≤ 1
    ∧ claimStep (fun l => [l.length])
      { vault := [2], mint := [3], unbonding_period := 5,
        freeze_administrators := [], rewards_administrators := [],
        bump := 0, paused := false }
      [(7, { index := 7, merkle_root := [48], total := 0, created_ts := 0 })]
      [3] [10] [(7, List.replicate 32 1)]
      { user := List.replicate 32 1, epochIndex := 7,
        user_stake_token_account := [11], amount := 1000, proof := [] }
      = ([(7, List.replicate 32 1)], none) :=
  ⟨(claim_record_double_claim_guard (fun l => [l.length])
      { vault := [2], mint := [3], unbonding_period := 5,
        freeze_administrators := [], rewards_administrators := [],
        bump := 0, paused := false }
      [(7, { index := 7, merkle_root := [48], total := 0, created_ts := 0 })]
      [3] [10] []
      [{ user := List.replicate 32 1, epochIndex := 7,
         user_stake_token_account := [11], amount := 1000, proof := [] },
       { user := List.replicate 32 1, epochIndex := 7,
         user_stake_token_account := [11], amount := 1000, proof := [] }]
      (7, List.replicate 32 1)).1,
   (claim_record_double_claim_guard (fun l => [l.length])
      { vault := [2], mint := [3], unbonding_period := 5,
        freeze_administrators := [], rewards_administrators := [],
        bump := 0, paused := false }
      [(7, { index := 7, merkle_root := [48], total := 0, created_ts := 0 })]
      [3] [10] [(7, List.replicate 32 1)] [] (7, List.replicate 32 1)).2.1
      { user := List.replicate 32 1, epochIndex := 7,
        user_stake_token_account := [11], amount := 1000, proof := [] }
      (by decide)⟩

/-- A successful `unbond` body returns the empty instruction list, the
ticket recording owner, requested amount, balance snapshot and timestamp,
and the event; and it requires a nonzero amount. -/
theorem unbond_ok_shape (config : Config) (signer mint : Pubkey)
    (user_mint_balance : Nat) (now : Int) (amount : Nat)
    (instrs : List TokenInstr) (t : UnbondingTicket) (ev : UnbondEvent)
    (hu : unbond config signer mint user_mint_balance now amount = .ok (instrs, t, ev)) :
    instrs = []
    ∧ t = { owner := signer, requested_amount := amount,
            start_balance := user_mint_balance, start_ts := now }
    ∧ ev = { user := signer, amount := amount, mint := mint, vault := config.vault }
    ∧ amount ≠ 0 := by
  unfold unbond at hu
  split_ifs at hu with h1 h2 h3
  all_goals
    first
      | exact Except.noConfusion hu
      | (injection hu with hv
         injection hv with ha hv
         injection hv with hb hc
         exact ⟨ha.symm, hb.symm, hc.symm, h1⟩)

/-- C5: while a live ticket exists for an owner, any further `unbond` by
that owner fails at ticket-account creation regardless of the requested
amount; and every ticket a successful `unbond` creates has
`requested_amount > 0` (and was created with no prior live ticket). -/
theorem single_live_ticket_per_owner (tickets : List (Pubkey × UnbondingTicket))
    (config : Config) (signer mint : Pubkey) (user_mint_balance : Nat)
    (now : Int) (amount : Nat) :
    ((findTicket tickets signer).isSome = true →
      unbondWithInit tickets config signer mint user_mint_balance now amount
        = .error .accountAlreadyInUse)
    ∧ (∀ st2 instrs t ev,
        unbondWithInit tickets config signer mint user_mint_balance now amount
          = .ok (st2, instrs, t, ev) →
        0 < t.requested_amount ∧ findTicket tickets signer = none) := by
  constructor
  · intro h
    obtain ⟨t, ht⟩ := Option.isSome_iff_exists.mp h
    unfold unbondWithInit
    rw [ht]
  · intro st2 instrs t ev h
    unfold unbondWithInit at h
    cases hf : findTicket tickets signer with
    | some t2 =>
      rw [hf] at h
      exact Except.noConfusion h
    | none =>
      rw [hf] at h
      refine ⟨?_, rfl⟩
      cases hu : unbond config signer mint user_mint_balance now amount with
      | error e =>
        rw [hu] at h
        exact Except.noConfusion h
      | ok v =>
        obtain ⟨instrs2, t2, ev2⟩ := v
        rw [hu] at h
        injection h with hv
        injection hv with h1 hv
        injection hv with h2 hv
        injection hv with h3 h4
        obtain ⟨hi, ht, hev, hamt⟩ := unbond_ok_shape config signer mint
          user_mint_balance now amount instrs2 t2 ev2 hu
        rw [← h3, ht]
        exact Nat.pos_of_ne_zero hamt

/-- C5 witness: owner `[4]` already has a live ticket, so a second unbond
(of a different amount) fails with the account-already-in-use error. -/
theorem single_live_ticket_per_owner_witness :
    unbondWithInit sampleTickets sampleConfig [4] [3] 5 0 2
      = .error .accountAlreadyInUse :=
  (single_live_ticket_per_owner sampleTickets sampleConfig [4] [3] 5 0 2).1 (by decide)

/-- C9: a successful `unbond` issues no token instruction — every ledger
balance is untouched — and its only effects are the new ticket recording
owner, requested amount, balance snapshot and timestamp, plus the emitted
event. -/
theorem unbond_no_token_effects (tickets : List (Pubkey × UnbondingTicket))
    (config : Config) (signer mint : Pubkey) (user_mint_balance : Nat)
    (now : Int) (amount : Nat) :
    ∀ st2 instrs t ev,
      unbondWithInit tickets config signer mint user_mint_balance now amount
        = .ok (st2, instrs, t, ev) →
      instrs = []
      ∧ t = { owner := signer, requested_amount := amount,
              start_balance := user_mint_balance, start_ts := now }
      ∧ ev = { user := signer, amount := amount, mint := mint, vault := config.vault }
      ∧ st2 = (signer, t) :: tickets
      ∧ (∀ b a, applyTokenInstrs b instrs a = b a) := by
  intro st2 instrs t ev h
  unfold unbondWithInit at h
  cases hf : findTicket tickets signer with
  | some t2 =>
    rw [hf] at h
    exact Except.noConfusion h
  | none =>
    rw [hf] at h
    cases hu : unbond config signer mint user_mint_balance now amount with
    | error e =>
      rw [hu] at h
      exact Except.noConfusion h
    | ok v =>
      obtain ⟨instrs2, t2, ev2⟩ := v
      rw [hu] at h
      injection h with hv
      injection hv with h1 hv
      injection hv with h2 hv
      injection hv with h3 h4
      obtain ⟨hi, ht, hev, hamt⟩ := unbond_ok_shape config signer mint
        user_mint_balance now amount instrs2 t2 ev2 hu
      subst h1
      subst h2
      subst h3
      subst h4
      refine ⟨hi, ht, hev, rfl, fun b a => ?_⟩
      rw [hi]
      rfl

/-- C9 witness: a concrete successful unbond of amount 3 with balance 5 at
time 100 creates the expected ticket and event, issues no token
instruction, and leaves every balance untouched. -/
theorem unbond_no_token_effects_witness :
    ([] : List TokenInstr) = []
    ∧ sampleTicket100
      = { owner := [4], requested_amount := 3, start_balance := 5, start_ts := 100 }
    ∧ ({ user := [4], amount := 3, mint := [3], vault := sampleConfig.vault } : UnbondEvent)
      = { user := [4], amount := 3, mint := [3], vault := sampleConfig.vault }
    ∧ ([([4], sampleTicket100)] : List (Pubkey × UnbondingTicket))
      = ([4], sampleTicket100) :: []
    ∧ (∀ b a, applyTokenInstrs b [] a = b a) :=
  unbond_no_token_effects [] sampleConfig [4] [3] 5 100 3
    [([4], sampleTicket100)] [] sampleTicket100
    { user := [4], amount := 3, mint := [3], vault := sampleConfig.vault }
    (by decide)

/-- C6 counterexample: while the pause flag is set, a deposit with
amount 0 fails with `InvalidAmount` — the amount check precedes the pause
check — not with the protocol-paused error the claim asserts for every
call. -/
theorem pause_gating_counterexample :
    deposit samplePausedConfig [4] [5] [6] [3] [7] [8] 0
      = .error (.custom .InvalidAmount)
    ∧ deposit samplePausedConfig [4] [5] [6] [3] [7] [8] 0
      ≠ .error (.custom .ProtocolPaused) :=
  ⟨by decide, by decide⟩

/-- C6 (amended): while paused, `deposit`, `unbond`, `redeem` and
`claim_rewards` all fail, with the protocol-paused error except where an
earlier check fires first (`deposit`/`unbond` validate `amount > 0` before
the pause check; `unbond`/`claim_rewards` can fail earlier at account
creation when a live ticket or claim record exists); `pause`,
`update_config`, the administrator-list updates and
`freeze_token_account`/`thaw_token_account` are unaffected by the pause
flag. -/
theorem pause_gating_amended (config : Config) (hp : config.paused = true) :
    (∀ signer uvta vta mint ma umta amount, amount ≠ 0 →
        deposit config signer uvta vta mint ma umta amount
          = .error (.custom .ProtocolPaused))
    ∧ (∀ signer uvta vta mint ma umta amount,
        ¬ succeeds (deposit config signer uvta vta mint ma umta amount))
    ∧ (∀ signer mint bal now amount, amount ≠ 0 →
        unbond config signer mint bal now amount = .error (.custom .ProtocolPaused))
    ∧ (∀ tickets signer mint bal now amount,
        ¬ succeeds (unbondWithInit tickets config signer mint bal now amount))
    ∧ (∀ now ticket signer bal vbal mint umta vta uvta va,
        redeem config now ticket signer bal vbal mint umta vta uvta va
          = .error (.custom .ProtocolPaused))
    ∧ (∀ H user epoch mint ma usta amount proof,
        claim_rewards H config user epoch mint ma usta amount proof
          = .error (.custom .ProtocolPaused))
    ∧ (∀ H epochs mint ma records c,
        (claimStep H config epochs mint ma records c).2 = none)
    ∧ (∀ pd signer flag b b',
        succeeds (pause pd { config with paused := b } signer flag) ↔
          succeeds (pause pd { config with paused := b' } signer flag))
    ∧ (∀ pd signer p b b',
        succeeds (update_config pd { config with paused := b } signer p) ↔
          succeeds (update_config pd { config with paused := b' } signer p))
    ∧ (∀ pd signer l b b',
        succeeds (update_freeze_administrators pd { config with paused := b } signer l) ↔
          succeeds (update_freeze_administrators pd { config with paused := b' } signer l))
    ∧ (∀ pd signer l b b',
        succeeds (update_rewards_administrators pd { config with paused := b } signer l) ↔
          succeeds (update_rewards_administrators pd { config with paused := b' } signer l))
    ∧ (∀ signer ta tam mint mfa fpda b b',
        freeze_token_account { config with paused := b } signer ta tam mint mfa fpda
          = freeze_token_account { config with paused := b' } signer ta tam mint mfa fpda)
    ∧ (∀ signer ta tam mint mfa fpda b b',
        thaw_token_account { config with paused := b } signer ta tam mint mfa fpda
          = thaw_token_account { config with paused := b' } signer ta tam mint mfa fpda) := by
  refine ⟨?_, ?_, ?_, ?_, ?_, ?_, ?_, ?_, ?_, ?_, ?_, ?_, ?_⟩
  · intro signer uvta vta mint ma umta amount ha
    simp [deposit, ha, hp]
  · intro signer uvta vta mint ma umta amount hs
    by_cases ha : amount = 0
    · simp [deposit, ha, succeeds] at hs
    · simp [deposit, ha, hp, succeeds] at hs
  · intro signer mint bal now amount ha
    simp [unbond, ha, hp]
  · intro tickets signer mint bal now amount hs
    unfold unbondWithInit at hs
    cases hf : findTicket tickets signer with
    | some t =>
      rw [hf] at hs
      exact hs
    | none =>
      rw [hf] at hs
      by_cases ha : amount = 0
      · simp [unbond, ha, succeeds] at hs
      · simp [unbond, ha, hp, succeeds] at hs
  · intro now ticket signer bal vbal mint umta vta uvta va
    simp [redeem, hp]
  · intro H user epoch mint ma usta amount proof
    simp [claim_rewards, hp]
  · intro H epochs mint ma records c
    unfold claimStep
    cases lookupEpoch epochs c.epochIndex with
    | none => rfl
    | some epoch =>
      by_cases hm : claimKey c ∈ records
      · simp [hm]
      · simp [hm, claim_rewards, hp]
  · intro pd signer flag b b'
    unfold pause
    cases validate_program_update_authority pd signer <;> simp [succeeds]
  · intro pd signer p b b'
    unfold update_config
    cases validate_program_update_authority pd signer
    · simp [succeeds]
    · split_ifs <;> simp [succeeds]
  · intro pd signer l b b'
    unfold update_freeze_administrators
    cases validate_program_update_authority pd signer
    · simp [succeeds]
    · split_ifs <;> simp [succeeds]
  · intro pd signer l b b'
    unfold update_rewards_administrators
    cases validate_program_update_authority pd signer
    · simp [succeeds]
    · split_ifs <;> simp [succeeds]
  · intro signer ta tam mint mfa fpda b b'
    rfl
  · intro signer ta tam mint mfa fpda b b'
    rfl

/-- C6 witness: with the sample paused configuration, `redeem` fails with
`ProtocolPaused`. -/
theorem pause_gating_amended_witness :
    redeem samplePausedConfig 100 sampleTicket [4] 5 5 [3] [6] [7] [8] [9]
      = .error (.custom .ProtocolPaused) :=
  (pause_gating_amended samplePausedConfig rfl).2.2.2.2.1
    100 sampleTicket [4] 5 5 [3] [6] [7] [8] [9]

/-- C7 (code bug): `update_config` assigns the new period to the config
before building the event, so the event's `old_period` field carries the
already-updated value; with the stored period 5 and a root-authorized
update to 7 the emitted record has `old_period = 7`, not the pre-call
value 5. -/
theorem update_config_old_period_bug :
    update_config (some (.programData 0 (some [1]))) sampleConfig [1] 7
      = .ok ({ sampleConfig with unbonding_period := 7 },
             { admin := [1], old_period := 7, new_period := 7, mint := [3], vault := [2] })
    ∧ sampleConfig.unbonding_period = 5
    ∧ (7 : Int) ≠ 5 :=
  ⟨by decide, by decide, by decide⟩

/-- A successful `update_freeze_administrators` stores exactly the new
list. -/
theorem update_freeze_administrators_sets (pd : Option UpgradeableLoaderState)
    (config : Config) (signer : Pubkey) (l : List Pubkey) (cfg2 : Config)
    (h : update_freeze_administrators pd config signer l = .ok cfg2) :
    cfg2.freeze_administrators = l := by
  unfold update_freeze_administrators at h
  cases hv : validate_program_update_authority pd signer with
  | error e =>
    rw [hv] at h
    exact Except.noConfusion h
  | ok u =>
    rw [hv] at h
    split_ifs at h with hl
    all_goals
      first
        | exact Except.noConfusion h
        | (injection h with h2
           rw [← h2])

/-- C8: `freeze_token_account` and `thaw_token_account` succeed exactly
when the signer is in the current freeze-administrator list and the mint's
freeze authority is the derived freeze-authority address; a wrong freeze
authority yields `InvalidFreezeAuthority`, a non-member signer (with the
authority in place) yields `UnauthorizedFreezeAdministrator`; and after
`update_freeze_administrators` removes the signer, the next call is
rejected against the new list. -/
theorem freeze_thaw_admin_gating (config : Config) (signer ta tam mint fpda : Pubkey)
    (mfa : Option Pubkey) (hmint : tam = mint) :
    (succeeds (freeze_token_account config signer ta tam mint mfa fpda) ↔
      (mfa = some fpda ∧ signer ∈ config.freeze_administrators))
    ∧ (mfa ≠ some fpda →
        freeze_token_account config signer ta tam mint mfa fpda
          = .error (.custom .InvalidFreezeAuthority))
    ∧ (mfa = some fpda → signer ∉ config.freeze_administrators →
        freeze_token_account config signer ta tam mint mfa fpda
          = .error (.custom .UnauthorizedFreezeAdministrator))
    ∧ (succeeds (thaw_token_account config signer ta tam mint mfa fpda) ↔
      (mfa = some fpda ∧ signer ∈ config.freeze_administrators))
    ∧ (mfa ≠ some fpda →
        thaw_token_account config signer ta tam mint mfa fpda
          = .error (.custom .InvalidFreezeAuthority))
    ∧ (mfa = some fpda → signer ∉ config.freeze_administrators →
        thaw_token_account config signer ta tam mint mfa fpda
          = .error (.custom .UnauthorizedFreezeAdministrator))
    ∧ (∀ pd rootSigner newAdmins cfg2,
        update_freeze_administrators pd config rootSigner newAdmins = .ok cfg2 →
        signer ∉ newAdmins → mfa = some fpda →
        freeze_token_account cfg2 signer ta tam mint mfa fpda
          = .error (.custom .UnauthorizedFreezeAdministrator)
        ∧ thaw_token_account cfg2 signer ta tam mint mfa fpda
          = .error (.custom .UnauthorizedFreezeAdministrator)) := by
  subst hmint
  refine ⟨?_, ?_, ?_, ?_, ?_, ?_, ?_⟩
  · unfold freeze_token_account
    by_cases hfa : mfa = some fpda
    · by_cases hmem : signer ∈ config.freeze_administrators
      · simp [hfa, hmem, succeeds]
      · simp [hfa, hmem, succeeds]
    · simp [hfa, succeeds]
  · intro hfa
    simp [freeze_token_account, hfa]
  · intro hfa hmem
    simp [freeze_token_account, hfa, hmem]
  · unfold thaw_token_account
    by_cases hfa : mfa = some fpda
    · by_cases hmem : signer ∈ config.freeze_administrators
      · simp [hfa, hmem, succeeds]
      · simp [hfa, hmem, succeeds]
    · simp [hfa, succeeds]
  · intro hfa
    simp [thaw_token_account, hfa]
  · intro hfa hmem
    simp [thaw_token_account, hfa, hmem]
  · intro pd rootSigner newAdmins cfg2 hupd hnot hfa
    have hset := update_freeze_administrators_sets pd config rootSigner newAdmins
      cfg2 hupd
    constructor
    · unfold freeze_token_account
      rw [hset]
      simp [hfa, hnot]
    · unfold thaw_token_account
      rw [hset]
      simp [hfa, hnot]

/-- C8 witness: signer `[5]` is a freeze administrator of the sample
configuration and the mint's freeze authority is the derived address
`[12]`, so the freeze call succeeds; after the list is replaced by the
empty list, the same signer is rejected. -/
theorem freeze_thaw_admin_gating_witness :
    succeeds (freeze_token_account sampleFreezeConfig [5] [20] [3] [3] (some [12]) [12])
    ∧ (freeze_token_account { sampleFreezeConfig with freeze_administrators := [] }
        [5] [20] [3] [3] (some [12]) [12]
        = .error (.custom .UnauthorizedFreezeAdministrator)
      ∧ thaw_token_account { sampleFreezeConfig with freeze_administrators := [] }
        [5] [20] [3] [3] (some [12]) [12]
        = .error (.custom .UnauthorizedFreezeAdministrator)) :=
  ⟨(freeze_thaw_admin_gating sampleFreezeConfig [5] [20] [3] [3] [12] (some [12])
      rfl).1.mpr (by decide),
   (freeze_thaw_admin_gating sampleFreezeConfig [5] [20] [3] [3] [12] (some [12])
      rfl).2.2.2.2.2.2 (some (.programData 0 (some [1]))) [1] []
      { sampleFreezeConfig with freeze_administrators := [] }
      (by decide) (by decide) (by decide)⟩

/-- C10: the `total` field of a rewards epoch is write-only — the outcome
of `claim_rewards` is unchanged under any change to `epoch.total`, a
successful claim mints exactly the caller-supplied amount, and
`create_rewards_epoch` merely stores the given total. -/
theorem epoch_total_write_only (H : List Nat → List Nat) (config : Config)
    (user : Pubkey) (epoch : RewardsEpoch) (mint ma usta : Pubkey)
    (amount : Nat) (proof : List ProofNode) (t : Nat) :
    claim_rewards H config user { epoch with total := t } mint ma usta amount proof
      = claim_rewards H config user epoch mint ma usta amount proof
    ∧ (∀ instrs ev,
        claim_rewards H config user epoch mint ma usta amount proof = .ok (instrs, ev) →
        instrs = [TokenInstr.mintTo mint usta ma amount])
    ∧ (∀ admin index root tot now e,
        create_rewards_epoch config admin index root tot now = .ok e →
        e.total = tot) := by
  refine ⟨rfl, ?_, ?_⟩
  · intro instrs ev h
    unfold claim_rewards at h
    split_ifs at h
    all_goals
      first
        | exact Except.noConfusion h
        | exact (congrArg Prod.fst (Except.ok.inj h)).symm
  · intro admin index root tot now e h
    unfold create_rewards_epoch at h
    split_ifs at h with hmem
    all_goals
      first
        | exact Except.noConfusion h
        | (injection h with hv
           rw [← hv])

/-- C10 witness: at the sample epoch, changing `total` from 0 to 9 leaves
the claim outcome unchanged (in particular the claimed amount 1000 exceeds
both totals), and the mint and epoch-creation clauses are instantiated at
the same inputs. -/
theorem epoch_total_write_only_witness :
    claim_rewards (fun l => [l.length]) sampleConfig (List.replicate 32 1)
        { sampleEpoch with total := 9 } [3] [10] [11] 1000 []
      = claim_rewards (fun l => [l.length]) sampleConfig (List.replicate 32 1)
        sampleEpoch [3] [10] [11] 1000 []
    ∧ (∀ instrs ev,
        claim_rewards (fun l => [l.length]) sampleConfig (List.replicate 32 1)
            sampleEpoch [3] [10] [11] 1000 [] = .ok (instrs, ev) →
        instrs = [TokenInstr.mintTo [3] [11] [10] 1000])
    ∧ (∀ admin index root tot now e,
        create_rewards_epoch sampleConfig admin index root tot now = .ok e →
        e.total = tot) :=
  epoch_total_write_only (fun l => [l.length]) sampleConfig (List.replicate 32 1)
    sampleEpoch [3] [10] [11] 1000 [] 9

end HastraVault
